import Mathlib

/-!
Verification development for the athenacli repository (backend-abstracted
SQL execution pipeline and background completion refresher).

The Python sources are shallowly embedded: pure fragments become Lean
functions, stateful methods become explicit state-passing functions, dicts
become association lists with `Option` lookup, and Python exceptions become
`Except` results.  Engine drivers (`pyathena.connect`, `psycopg2.connect`)
and other external collaborators are parameters of the embedded functions.
-/

namespace Athenacli

/-! ## Python string primitives used by the sources -/

/-- Python whitespace characters stripped by `str.strip()` (ASCII part). -/
def isPySpace (c : Char) : Bool :=
  c = ' ' || c = '\t' || c = '\n' || c = '\r' || c = '\x0b' || c = '\x0c'

/-- Python `s.strip()`: remove leading and trailing whitespace. -/
def pyStrip (s : String) : String :=
  ⟨((s.data.dropWhile isPySpace).reverse.dropWhile isPySpace).reverse⟩

/-- Python `s.rstrip(c)` for a one-character strip set: remove all trailing
occurrences of `c`. -/
def pyRstripChar (c : Char) (s : String) : String :=
  ⟨(s.data.reverse.dropWhile (fun x => x = c)).reverse⟩

/-- Python `s.endswith(sfx)`. -/
def pyEndsWith (sfx s : String) : Bool :=
  sfx.data.isSuffixOf s.data

/-- Python `c in s` for a one-character needle. -/
def pyContains (c : Char) (s : String) : Bool :=
  s.data.contains c

/-- Python `s[:-n]` for `n ≤ len(s)`: drop the last `n` characters. -/
def pyDropRight (n : Nat) (s : String) : String :=
  ⟨s.data.take (s.data.length - n)⟩

/-- Python `s.split(sep, 1)` for a one-character separator occurring in `s`:
the part before the first occurrence and everything after it. -/
def pySplit1 (sep : Char) (s : String) : String × String :=
  (⟨s.data.takeWhile (fun x => x ≠ sep)⟩,
   ⟨(s.data.dropWhile (fun x => x ≠ sep)).drop 1⟩)

/-! ## Query results (sqlexecute.py)

`SQLExecute.run` yields 4-tuples `(title, rows, headers, status)`; the
empty-input sentinel is the tuple with all four components `None`. -/

structure QueryResult where
  title : Option String
  rows : Option (List (List String))
  headers : Option (List String)
  status : Option String
deriving Repr, DecidableEq

/-- The `(None, None, None, None)` sentinel yielded for empty input. -/
def nullResult : QueryResult := ⟨none, none, none, none⟩

/-! ## Statement preprocessing (sqlexecute.py, `run`, lines 61-68)

For each component of the split batch the code runs
`sql = sql.rstrip(';')`, then if `sql.endswith('\\G')` it calls
`special.set_expanded_output(True)` and continues with
`sql[:-2].strip()`. -/

/-- One statement's preprocessing: returns the text handed to the
dispatcher/executor and whether `set_expanded_output(True)` was called. -/
def processStatement (sql : String) : String × Bool :=
  let sql := pyRstripChar ';' sql
  if pyEndsWith "\\G" sql then
    ((pyStrip (pyDropRight 2 sql)), true)
  else
    (sql, false)

/-- Modelled from the spec: the meta-command dispatcher
(`athenacli/packages/special` is not among the sources).  Per §6 it exposes
`tryExecute(cursor, text) -> found(results) | notFound`; a recognized
command yields its result tuples, an unrecognized text reports not-found
(`special.CommandNotFound`), upon which `run` executes the text as SQL. -/
def Dispatch : Type := String → Option (List QueryResult)

/-- The SQL execution path of one statement (cursor `execute` followed by
`get_result`), abstracted as a function from the statement text to the one
result tuple it produces. -/
def ExecSql : Type := String → QueryResult

/-- The body of the `for sql in components` loop of `SQLExecute.run`:
per-statement results in order, paired with the number of
`set_expanded_output(True)` calls made. -/
def runStatements (dispatch : Dispatch) (execSql : ExecSql) :
    List String → List QueryResult × Nat
  | [] => ([], 0)
  | sql :: rest =>
    let p := processStatement sql
    let rs := match dispatch p.1 with
      | some rs => rs
      | none => [execSql p.1]
    let r := runStatements dispatch execSql rest
    (rs ++ r.1, (if p.2 then 1 else 0) + r.2)

/-- `SQLExecute.run`: strip the input; yield the sentinel when it is empty
(and fall through), split it with the statement splitter (external
collaborator, a parameter), and run each component.  Returns the yielded
results in order and the number of `set_expanded_output(True)` calls. -/
def run (dispatch : Dispatch) (execSql : ExecSql)
    (split : String → List String) (text : String) :
    List QueryResult × Nat :=
  let statement := pyStrip text
  let sentinel : List QueryResult := if statement = "" then [nullResult] else []
  let r := runStatements dispatch execSql (split statement)
  (sentinel ++ r.1, r.2)

/-! ## Completion refresher (completion_refresher.py)

`CompletionRefresher` owns one optional background worker thread and a
restart `Event`.  The worker state visible to `refresh()` is whether a
worker is alive and whether the restart flag is set.  The worker itself is
`_bg_refresh`: a `while 1` loop that runs every registered refresher task
in order, checking (and clearing) the restart flag after each task, and
invokes every callback once after a pass completes with no check firing.

The refresher tasks are functions mutating the completer; we embed the
worker generically over the completer type `α` and an arbitrary task list,
exactly as `self.refreshers.values()` is an arbitrary ordered collection
of functions.  The restart flag is set asynchronously by other threads'
`refresh()` calls; its observations are modelled by a schedule
`sched : Nat → Bool` giving the value the k-th `is_set()` check reads. -/

structure RefresherState where
  workerAlive : Bool
  restartFlag : Bool
deriving Repr, DecidableEq

/-- The acknowledgement returned when a worker is already running. -/
def ackRestarted : List QueryResult :=
  [⟨none, none, none, some "Auto-completion refresh restarted."⟩]

/-- The acknowledgement returned when a fresh worker is spawned. -/
def ackStarted : List QueryResult :=
  [⟨none, none, none, some "Auto-completion refresh started in the background."⟩]

/-- Outcome of one `refresh()` call: the successor state, the returned
acknowledgement, and whether this call spawned a new worker thread. -/
structure RefreshOutcome where
  state : RefresherState
  ack : List QueryResult
  spawned : Bool
deriving Repr, DecidableEq

/-- `CompletionRefresher.refresh`: if a worker is alive, set the restart
flag and acknowledge "restarted" without spawning; otherwise spawn exactly
one worker and acknowledge "started". -/
def refresh (st : RefresherState) : RefreshOutcome :=
  if st.workerAlive then
    ⟨⟨st.workerAlive, true⟩, ackRestarted, false⟩
  else
    ⟨⟨true, st.restartFlag⟩, ackStarted, true⟩

/-- Run a task list left to right on the completer. -/
def runTasks {α : Type} (tasks : List (α → α)) (idx : α) : α :=
  tasks.foldl (fun a t => t a) idx

/-- The `for refresher in self.refreshers.values()` loop of `_bg_refresh`:
run tasks in order; after each task the k-th global flag check reads
`sched k`; when it reads true the flag is cleared and the pass is
interrupted (`break`).  Returns the completer, the next check number, and
whether the pass was interrupted. -/
def runPass {α : Type} (sched : Nat → Bool) :
    List (α → α) → α → Nat → α × Nat × Bool
  | [], idx, k => (idx, k, false)
  | t :: ts, idx, k =>
    let idx := t idx
    if sched k then (idx, k + 1, true)
    else runPass sched ts idx (k + 1)

/-- The `while 1` loop of `_bg_refresh`: repeat passes while interrupted.
`fuel` bounds the number of passes (the Python loop is unbounded; every
schedule with finitely many restarts is covered by some fuel).  Returns the
completer and whether the loop exited through a complete pass. -/
def workerLoop {α : Type} (sched : Nat → Bool) (tasks : List (α → α)) :
    Nat → α → Nat → α × Bool
  | 0, idx, _ => (idx, false)
  | fuel + 1, idx, k =>
    let r := runPass sched tasks idx k
    if r.2.2 then workerLoop sched tasks fuel r.1 r.2.1
    else (r.1, true)

/-- `CompletionRefresher._bg_refresh`: build the completer by the worker
loop, then invoke every callback once with the finished completer.  The
callback invocations are recorded as `(callback, argument)` pairs in the
order they are made. -/
def bgRefresh {α β : Type} (sched : Nat → Bool) (tasks : List (α → α))
    (fuel : Nat) (idx0 : α) (callbacks : List β) :
    α × Bool × List (β × α) :=
  let r := workerLoop sched tasks fuel idx0 0
  (r.1, r.2, if r.2 then callbacks.map (fun cb => (cb, r.1)) else [])

/-! ## Python truthiness helpers -/

/-- Python truthiness of an optional string argument (`None` and `''` are
falsy), as used by `database or self.database` and `if database and ...`. -/
def truthyS : Option String → Bool
  | none => false
  | some s => s ≠ ""

/-- Python `a or b` on optional strings: `b` when `a` is `None` or `''`. -/
def pyOr (a b : Option String) : Option String :=
  if truthyS a then a else b

/-! ## Athena backend (backends/athena.py)

Connection handles are modelled as numbers; the `pyathena.connect` driver
is a parameter mapping the assembled connection parameters to either a new
handle or an error (a raised exception).  `close()` calls on handles are
recorded in `closedHandles` in the order they are made. -/

structure AthenaConnParams where
  aws_access_key_id : Option String
  aws_secret_access_key : Option String
  region_name : Option String
  s3_staging_dir : Option String
  work_group : Option String
  schema_name : Option String
  role_arn : Option String
  catalog_name : String
  result_reuse_enable : Bool
  result_reuse_minutes : Nat
deriving Repr, DecidableEq

structure AthenaBackend where
  aws_access_key_id : Option String
  aws_secret_access_key : Option String
  region_name : Option String
  s3_staging_dir : Option String
  work_group : Option String
  role_arn : Option String
  catalog_name : String
  result_reuse_enable : Bool
  result_reuse_minutes : Nat
  database : Option String
  conn : Option Nat
  closedHandles : List Nat
deriving Repr, DecidableEq

/-- The catalog/database resolution at the top of `AthenaBackend.connect`:
`catalog_name = self.catalog_name`, then
`if database and '.' in database: catalog_name, database = database.split('.', 1)`. -/
def AthenaBackend.resolveCatalog (be : AthenaBackend) (database : Option String) :
    String × Option String :=
  match database with
  | some d =>
    if d ≠ "" && pyContains '.' d then
      let p := pySplit1 '.' d
      (p.1, some p.2)
    else (be.catalog_name, some d)
  | none => (be.catalog_name, none)

/-- The `conn_params` dictionary assembled by `AthenaBackend.connect`. -/
def AthenaBackend.connParams (be : AthenaBackend) (database : Option String) :
    AthenaConnParams :=
  let r := be.resolveCatalog database
  { aws_access_key_id := be.aws_access_key_id
    aws_secret_access_key := be.aws_secret_access_key
    region_name := be.region_name
    s3_staging_dir := be.s3_staging_dir
    work_group := be.work_group
    schema_name := pyOr r.2 be.database
    role_arn := be.role_arn
    catalog_name := r.1
    result_reuse_enable := be.result_reuse_enable
    result_reuse_minutes := be.result_reuse_minutes }

/-- `AthenaBackend.connect`: assemble parameters, call the driver; on driver
failure the exception propagates with the instance untouched; on success set
`self.database`, close the previous handle if any, and install the new one.
Returns the instance after the call and the propagated error, if any. -/
def AthenaBackend.connect (be : AthenaBackend)
    (engine : AthenaConnParams → Except String Nat)
    (database : Option String) : AthenaBackend × Option String :=
  let r := be.resolveCatalog database
  match engine (be.connParams database) with
  | .error e => (be, some e)
  | .ok h =>
    let be := { be with database := pyOr r.2 be.database }
    match be.conn with
    | some old =>
      ({ be with conn := some h, closedHandles := be.closedHandles ++ [old] }, none)
    | none => ({ be with conn := some h }, none)

/-! ### Athena statistics (format_statistics, _humanize_size)

`_humanize_size` divides a float by 1024 at most four times (the suffix
list has five entries) and renders with `'%.2f'` followed by
`.rstrip('0').rstrip('.')`.  All byte counts in the claims are exact in
binary floating point and at two decimals, so ℚ models the float
arithmetic exactly on them. -/

/-- Render a non-negative rational like C `'%.2f'` (two decimals; the
exact rounding mode at ties is immaterial for the values in the claims,
which are all exact at two decimals).  `⌊q·100 + 1/2⌋` is computed on the
numerator and denominator directly. -/
def format2 (q : ℚ) : String :=
  let x := q * 100
  let n : ℤ := Int.fdiv (2 * x.num + (x.den : ℤ)) (2 * (x.den : ℤ))
  let ip : Nat := n.toNat / 100
  let fp : Nat := n.toNat % 100
  toString ip ++ "." ++ (if fp < 10 then "0" ++ toString fp else toString fp)

/-- The `while num_bytes >= 1024 and suffix_index < len(suffixes) - 1` loop
of `_humanize_size`; fuel 4 is exact since the index strictly increases to
at most 4. -/
def humanizeLoop : Nat → ℚ → Nat → ℚ × Nat
  | 0, q, i => (q, i)
  | fuel + 1, q, i =>
    if 1024 ≤ q ∧ i < 4 then humanizeLoop fuel (q / 1024) (i + 1)
    else (q, i)

/-- `AthenaBackend._humanize_size`. -/
def humanizeSize (numBytes : ℚ) : String :=
  let suffixes := ["B", "KB", "MB", "GB", "TB"]
  let r := humanizeLoop 4 numBytes 0
  let num := pyRstripChar '.' (pyRstripChar '0' (format2 r.1))
  num ++ " " ++ suffixes.getD r.2 ""

/-- The `approx_cost` computation of `AthenaBackend.format_statistics`:
`cursor.data_scanned_in_bytes / (1024 ** 4) * 5`. -/
def approxCost (dataScannedInBytes : ℚ) : ℚ :=
  dataScannedInBytes / 1024 ^ 4 * 5

/-- `AthenaBackend.format_statistics` for a present cursor, from the
cursor's execution-time and data-scanned attributes. -/
def formatStatisticsAthena (engineExecutionTimeInMillis : Nat)
    (dataScannedInBytes : ℚ) : String :=
  "\nExecution time: " ++ toString engineExecutionTimeInMillis ++
    " ms, Data scanned: " ++ humanizeSize dataScannedInBytes ++
    ", Approximate cost: $" ++ format2 (approxCost dataScannedInBytes)

/-! ## Redshift backend (backends/redshift.py) -/

structure RedshiftConnParams where
  host : Option String
  port : Nat
  database : String
  user : Option String
  password : Option String
  sslmode : String
  connect_timeout : Option Nat
deriving Repr, DecidableEq

structure RedshiftBackend where
  host : Option String
  port : Nat
  sslmode : String
  connect_timeout : Option Nat
  aws_profile : String
  region : String
  user : Option String
  use_iam : Bool
  password : Option String
  database : Option String
  conn : Option Nat
  closedHandles : List Nat
deriving Repr, DecidableEq

/-- The database-name resolution of `RedshiftBackend.connect`:
`database or self.database or 'dev'`. -/
def RedshiftBackend.resolveDbName (be : RedshiftBackend)
    (database : Option String) : String :=
  (pyOr database (pyOr be.database (some "dev"))).getD "dev"

/-- The credential resolution of `RedshiftBackend.connect`: when IAM
authentication is enabled and no static password is held, derive temporary
credentials via `_get_iam_credentials` (`iam`, which may raise); otherwise
use the stored user and password. -/
def RedshiftBackend.resolveCreds (be : RedshiftBackend)
    (iam : String → Except String (String × String)) (dbName : String) :
    Except String (Option String × Option String) :=
  if be.use_iam && !(truthyS be.password) then
    match iam dbName with
    | .error e => .error e
    | .ok p => .ok (some p.1, some p.2)
  else .ok (be.user, be.password)

/-- The `conn_params` dictionary assembled by `RedshiftBackend.connect`. -/
def RedshiftBackend.connParams (be : RedshiftBackend) (dbName : String)
    (up : Option String × Option String) : RedshiftConnParams :=
  { host := be.host, port := be.port, database := dbName,
    user := up.1, password := up.2, sslmode := be.sslmode,
    connect_timeout := be.connect_timeout }

/-- `RedshiftBackend.connect`: resolve the database name, derive
credentials when needed, assemble parameters and call the driver
(`engine`, covering `psycopg2.connect` together with the subsequent
`set_isolation_level`); any raised error propagates with the instance
untouched; on success set `self.database`, close the previous handle if
any, and install the new one. -/
def RedshiftBackend.connect (be : RedshiftBackend)
    (iam : String → Except String (String × String))
    (engine : RedshiftConnParams → Except String Nat)
    (database : Option String) : RedshiftBackend × Option String :=
  let dbName := be.resolveDbName database
  match be.resolveCreds iam dbName with
  | .error e => (be, some e)
  | .ok up =>
    match engine (be.connParams dbName up) with
    | .error e => (be, some e)
    | .ok h =>
      let be := { be with database := some dbName }
      match be.conn with
      | some old =>
        ({ be with conn := some h, closedHandles := be.closedHandles ++ [old] }, none)
      | none => ({ be with conn := some h }, none)

/-- `RedshiftBackend.format_statistics` for a present cursor. -/
def formatStatisticsRedshift : String := ""

/-- The generator body of `RedshiftBackend.tables`, applied to the rows
the `TABLES_QUERY` cursor yields: one single-element tuple per
`(schema, table)` row, concatenated with `'.'` in Python. -/
def redshiftTables (rows : List (String × String)) : List (List String) :=
  rows.map (fun r => [r.1 ++ "." ++ r.2])

/-! ## Status formatting (packages/format_utils.py) and
`SQLExecute.get_result` (sqlexecute.py) -/

/-- `rows_status(rows_length)`: `'%d row%s in set'` when `rows_length` is
truthy (so neither `None` nor `0`), else `'Query OK'`. -/
def rowsStatus : Option Nat → String
  | some n => if n ≠ 0 then
      toString n ++ " row" ++ (if n = 1 then "" else "s") ++ " in set"
    else "Query OK"
  | none => "Query OK"

/-- `format_status(rows_length, cursor, backend)`: the row status with the
backend's statistics suffix (`statistics(cursor, backend)`, which is
`backend.format_statistics(cursor)` when cursor and backend are present, as
they are at both call sites in `get_result`) appended. -/
def format_status (rowsLength : Option Nat) (suffix : String) : String :=
  rowsStatus rowsLength ++ suffix

/-- A driver cursor after `execute`, as `get_result` reads it:
`description` (column descriptors, first components) and the rows
`fetchall` returns. -/
structure Cursor where
  description : Option (List String)
  fetched : List (List String)
deriving Repr, DecidableEq

/-- `SQLExecute.get_result`: tabular when `cursor.description` is not
`None` (headers and all rows collected, status from the row count),
non-tabular otherwise (rows and headers absent, status from a `None` row
count); in both cases the status carries the backend's statistics suffix
`formatStats cur`. -/
def get_result (formatStats : Cursor → String) (cur : Cursor) : QueryResult :=
  match cur.description with
  | some ds =>
    ⟨none, some cur.fetched, some ds,
      some (format_status (some cur.fetched.length) (formatStats cur))⟩
  | none =>
    ⟨none, none, none, some (format_status none (formatStats cur))⟩

/-! ## Completer and the tables refresh task (completion_refresher.py)

The `AthenaCompleter` collaborator (athenacli/completer.py) is not among
the sources; its state and operations are modelled from the spec (§3, §6).
Dictionaries become association lists; `KeyError` becomes `Except`. -/

/-- Association-list lookup, modelling Python `d[k]` (`none` = `KeyError`). -/
def alistGet {κ ν : Type} [DecidableEq κ] : List (κ × ν) → κ → Option ν
  | [], _ => none
  | p :: ps, k => if p.1 = k then some p.2 else alistGet ps k

/-- Association-list assignment, modelling Python `d[k] = v` (replaces the
binding when present, appends it otherwise). -/
def alistSet {κ ν : Type} [DecidableEq κ] : List (κ × ν) → κ → ν → List (κ × ν)
  | [], k, v => [(k, v)]
  | p :: ps, k, v => if p.1 = k then (k, v) :: ps else p :: alistSet ps k v

/-- Python `set.add`. -/
def addUnique (l : List String) (s : String) : List String :=
  if s ∈ l then l else l ++ [s]

/-- The per-database table→columns map `completer.dbmetadata['tables']`
(keys may be `None`, as `completer.dbname` can be). -/
abbrev TablesMeta : Type := List (Option String × List (String × List String))

/-- Modelled from the spec: the Completer collaborator's state
(athenacli/completer.py is not among the sources).  Per §3 it holds, among
others, the per-database table→column-list mapping, the current database
name, and the flat set of all known identifiers. -/
structure Completer where
  dbmetadataTables : TablesMeta
  dbname : Option String
  all_completions : List String
deriving Repr, DecidableEq

/-- `metadata[completer.dbname][relname] = ['*']` guarded by
`try: ... except KeyError: pass` — a missing database key is ignored, a
present one gets the relation bound to `['*']`. -/
def setRelStar (md : TablesMeta) (db : Option String) (rel : String) : TablesMeta :=
  match alistGet md db with
  | none => md
  | some inner => alistSet md db (alistSet inner rel ["*"])

/-- `metadata[completer.dbname][relname].append(column)` with no handler:
a missing database or relation key raises `KeyError`. -/
def appendColumn (md : TablesMeta) (db : Option String) (rel col : String) :
    Except String TablesMeta :=
  match alistGet md db with
  | none => .error "KeyError"
  | some inner =>
    match alistGet inner rel with
    | none => .error "KeyError"
    | some cols => .ok (alistSet md db (alistSet inner rel (cols ++ [col])))

/-- Modelled from the spec: `Completer.extend_relations` (completer.py is
not among the sources).  Per §6 it records each discovered relation name in
the per-database table map and the flat completion set; consuming a failing
relation source propagates the failure.  The spec does not define the
identifier-escaping rules of the bare-identifier strategy, so names are
recorded as given (escaping does not affect success or failure). -/
def Completer.extend_relations (c : Completer)
    (src : Except String (List String)) : Except String Completer :=
  match src with
  | .error e => .error e
  | .ok rels => .ok (rels.foldl (fun c r =>
      { c with dbmetadataTables := setRelStar c.dbmetadataTables c.dbname r,
               all_completions := addUnique c.all_completions r }) c)

/-- Modelled from the spec: `Completer.extend_columns` (completer.py is not
among the sources).  Per §6 it records each `(relation, column)` pair under
the relation's column list and in the flat completion set; consuming a
failing column source propagates the failure; pairs for unknown relations
are ignored. -/
def Completer.extend_columns (c : Completer)
    (src : Except String (List (String × String))) : Except String Completer :=
  match src with
  | .error e => .error e
  | .ok cols => .ok (cols.foldl (fun c tc =>
      match appendColumn c.dbmetadataTables c.dbname tc.1 tc.2 with
      | .error _ => c
      | .ok md => { c with dbmetadataTables := md,
                           all_completions := addUnique c.all_completions tc.2 }) c)

/-- The runtime class of `executor.backend`, as the `isinstance` test in
`refresh_tables` sees it. -/
inductive BackendKind where
  | athena
  | redshift
deriving Repr, DecidableEq

/-- What `refresh_tables` reads from its executor: the backend's runtime
class and the outcomes of consuming `executor.tables()` (one relation name
per single-element row) and `executor.table_columns()`. -/
structure ExecutorView where
  kind : BackendKind
  tablesResult : Except String (List String)
  columnsResult : Except String (List (String × String))

/-- The `tables` refresher task (`refresh_tables`).  Redshift branch:
consume `tables()` (unguarded), bind each relation with `['*']` (missing
database key ignored) and add it to the completions; consume
`table_columns()` under `try: ... except Exception: column_data = []`; then
append each column (unguarded `KeyError`).  Other backends: plain
`extend_relations` then `extend_columns`, neither guarded. -/
def refresh_tables (completer : Completer) (ex : ExecutorView) :
    Except String Completer :=
  match ex.kind with
  | .redshift =>
    match ex.tablesResult with
    | .error e => .error e
    | .ok tablesData =>
      let c := tablesData.foldl (fun c relname =>
        { c with dbmetadataTables := setRelStar c.dbmetadataTables c.dbname relname,
                 all_completions := addUnique c.all_completions relname }) completer
      let columnData := match ex.columnsResult with
        | .ok l => l
        | .error _ => []
      columnData.foldlM (fun c rc =>
        match appendColumn c.dbmetadataTables c.dbname rc.1 rc.2 with
        | .error e => .error e
        | .ok md => .ok { c with dbmetadataTables := md,
                                 all_completions := addUnique c.all_completions rc.2 }) c
  | .athena =>
    match completer.extend_relations ex.tablesResult with
    | .error e => .error e
    | .ok c => c.extend_columns ex.columnsResult

/-! ## Helper lemmas -/

theorem rowsStatus_length_pos (x : Option Nat) : 0 < (rowsStatus x).length := by
  match x with
  | none => decide
  | some n =>
    by_cases h : n = 0
    · subst h; decide
    · simp only [rowsStatus, if_pos h, String.length_append]
      have : (" in set" : String).length = 7 := by decide
      omega

theorem append_ne_empty_of_left_ne_empty (a b : String) (h : 0 < a.length) :
    a ++ b ≠ "" := by
  intro hc
  have : (a ++ b).length = 0 := by rw [hc]; decide
  rw [String.length_append] at this
  omega

/-! ## C8: byte humanization and cost estimation -/

/-- C8: the Athena byte humanization uses base-1024 scaling with
two-decimal precision and trailing zeros trimmed — 1023 bytes render as
"1023 B", 1024 as "1 KB", 1536 as "1.5 KB" and 2^40 as "1 TB" — and the
cost of scanning exactly 2^40 bytes at the fixed $5-per-terabyte constant
renders as 5.00. -/
theorem athena_humanize_and_cost :
    humanizeSize 1023 = "1023 B" ∧
    humanizeSize 1024 = "1 KB" ∧
    humanizeSize 1536 = "1.5 KB" ∧
    (2 ^ 40 : ℚ) = 1099511627776 ∧
    humanizeSize 1099511627776 = "1 TB" ∧
    format2 (approxCost 1099511627776) = "5.00" := by
  refine ⟨?_, ?_, ?_, by norm_num, ?_, ?_⟩ <;> with_unfolding_all decide

/-! ## C9: Redshift qualified table names -/

/-- C9: for every sequence of (schema, relation) rows from the metadata
query, `RedshiftBackend.tables` yields one single-element tuple per row
containing schema and relation joined with a dot at the application layer,
preserving input order and adding no quoting characters; in particular rows
[("public","a"),("public","b")] yield [("public.a",), ("public.b",)]. -/
theorem redshift_tables_qualified :
    (∀ rows : List (String × String),
      (redshiftTables rows).length = rows.length) ∧
    (∀ rows : List (String × String), ∀ i : Nat, i < rows.length →
      (redshiftTables rows).getD i [] =
        [(rows.getD i ("", "")).1 ++ "." ++ (rows.getD i ("", "")).2]) ∧
    (∀ rows : List (String × String), ∀ s ∈ redshiftTables rows, ∀ t ∈ s,
      ∀ c ∈ t.data, c = '.' ∨ ∃ p ∈ rows, c ∈ p.1.data ∨ c ∈ p.2.data) ∧
    redshiftTables [("public", "a"), ("public", "b")] =
      [["public.a"], ["public.b"]] := by
  refine ⟨?_, ?_, ?_, rfl⟩
  · intro rows; simp [redshiftTables]
  · intro rows i hi
    simp only [redshiftTables, List.getD, List.get?_eq_getElem?,
      List.getElem?_map]
    rw [List.getElem?_eq_getElem hi]
    simp
  · intro rows s hs t ht c hc
    simp only [redshiftTables, List.mem_map] at hs
    obtain ⟨p, hp, rfl⟩ := hs
    simp only [List.mem_singleton] at ht
    subst ht
    have : c ∈ (p.1 ++ "." ++ p.2).data := hc
    rw [String.data_append, String.data_append] at this
    rcases List.mem_append.1 this with h | h
    · rcases List.mem_append.1 h with h | h
      · exact Or.inr ⟨p, hp, Or.inl h⟩
      · left
        simpa using h
    · exact Or.inr ⟨p, hp, Or.inr h⟩

/-- Witness for C9 at concrete inputs. -/
theorem redshift_tables_qualified_witness :
    (redshiftTables [("public", "a"), ("public", "b")]).getD 1 [] =
      ["public.b"] := by
  have h := redshift_tables_qualified.2.1 [("public", "a"), ("public", "b")] 1
    (by decide)
  simpa using h

/-! ## C5: status formatting of executed SQL -/

/-- C5: for every executed statement whose cursor reports column
descriptors, the status equals "N row[s] in set" (singular for N = 1)
when the collected row count is positive and "Query OK" otherwise, with
the backend's statistics suffix appended; and the status of every executed
statement's result is present and non-empty. -/
theorem executed_sql_status (formatStats : Cursor → String) (cur : Cursor) :
    (∀ ds, cur.description = some ds →
      (get_result formatStats cur).status = some
        ((if cur.fetched.length ≠ 0 then
            toString cur.fetched.length ++ " row" ++
              (if cur.fetched.length = 1 then "" else "s") ++ " in set"
          else "Query OK") ++ formatStats cur)) ∧
    (∃ s, (get_result formatStats cur).status = some s ∧ s ≠ "") := by
  constructor
  · intro ds hds
    simp [get_result, hds, format_status, rowsStatus]
  · have hne : ∀ x s, format_status x s ≠ "" := fun x s =>
      append_ne_empty_of_left_ne_empty _ _ (rowsStatus_length_pos x)
    match h : cur.description with
    | some ds =>
      exact ⟨format_status (some cur.fetched.length) (formatStats cur),
        by simp [get_result, h], hne _ _⟩
    | none =>
      exact ⟨format_status none (formatStats cur),
        by simp [get_result, h], hne _ _⟩

/-- Witness for C5 at a concrete tabular cursor with two rows. -/
theorem executed_sql_status_witness :
    (get_result (fun _ => " (stats)") ⟨some ["h1"], [["a"], ["b"]]⟩).status =
      some "2 rows in set (stats)" := by
  have h := (executed_sql_status (fun _ => " (stats)")
    ⟨some ["h1"], [["a"], ["b"]]⟩).1 ["h1"] rfl
  rw [h]
  rfl

/-! ## C1: one result tuple per statement -/

theorem runStatements_map_of_single (dispatch : Dispatch) (execSql : ExecSql)
    (comps : List String)
    (h1 : ∀ c ∈ comps, ∀ rs, dispatch (processStatement c).1 = some rs →
      rs.length = 1) :
    (runStatements dispatch execSql comps).1 = comps.map (fun c =>
      match dispatch (processStatement c).1 with
      | some rs => rs.headD (execSql (processStatement c).1)
      | none => execSql (processStatement c).1) := by
  induction comps with
  | nil => rfl
  | cons c cs ih =>
    have hc := h1 c (List.mem_cons_self c cs)
    have ihr := ih (fun x hx rs h => h1 x (List.mem_cons_of_mem c hx) rs h)
    simp only [runStatements, List.map_cons]
    match hd : dispatch (processStatement c).1 with
    | some rs =>
      obtain ⟨r, rfl⟩ := List.length_eq_one.1 (hc rs hd)
      simp [ihr]
    | none =>
      simp [ihr]

/-- C1 (amended): for every non-empty input batch in which every statement
recognized as a meta-command yields exactly one result tuple (regular SQL
always yields exactly one), `run()` yields exactly N result tuples for the
N statements the splitter produces, one per statement, in source order. -/
theorem run_one_result_per_statement (dispatch : Dispatch) (execSql : ExecSql)
    (split : String → List String) (text : String)
    (hne : pyStrip text ≠ "")
    (h1 : ∀ c ∈ split (pyStrip text), ∀ rs,
      dispatch (processStatement c).1 = some rs → rs.length = 1) :
    (run dispatch execSql split text).1 = (split (pyStrip text)).map (fun c =>
      match dispatch (processStatement c).1 with
      | some rs => rs.headD (execSql (processStatement c).1)
      | none => execSql (processStatement c).1) ∧
    (run dispatch execSql split text).1.length =
      (split (pyStrip text)).length := by
  have hmap := runStatements_map_of_single dispatch execSql
    (split (pyStrip text)) h1
  constructor
  · simp [run, hne, hmap]
  · simp [run, hne, hmap]

/-- SQL execution model used by concrete instances: the statement text is
echoed in the result's title. -/
def plainExec : ExecSql := fun s => ⟨some s, none, none, some "ok"⟩

/-- Statement splitter model yielding one statement. -/
def oneSplit : String → List String := fun s => [s]

/-- Witness for C1 (amended) at a one-statement batch with no recognized
meta-command. -/
theorem run_one_result_per_statement_witness :
    (run (fun _ => none) plainExec oneSplit "select 1").1 =
      [plainExec "select 1"] ∧
    (run (fun _ => none) plainExec oneSplit "select 1").1.length = 1 := by
  have h := run_one_result_per_statement (fun _ => none) plainExec oneSplit
    "select 1" (by decide) (fun c _ rs hrs => Option.noConfusion hrs)
  refine ⟨?_, h.2⟩
  rw [h.1]
  decide

/-- A meta-command dispatcher recognizing the text "cmd" and yielding two
result tuples for it (the spec's dispatcher may yield several results per
command). -/
def multiDispatch : Dispatch := fun s =>
  if s = "cmd" then
    some [⟨none, none, none, some "one"⟩, ⟨none, none, none, some "two"⟩]
  else none

/-- Counterexample to C1 as stated: a batch of one statement whose
meta-command dispatch yields two result tuples makes `run()` yield two
result tuples, not one. -/
theorem run_one_result_per_statement_counterexample :
    (oneSplit (pyStrip "cmd")).length = 1 ∧
    (run multiDispatch plainExec oneSplit "cmd").1.length = 2 := by
  constructor
  · rfl
  · decide

/-! ## C7: the trailing expanded-output marker -/

/-- C7 (amended): for every statement that, after stripping trailing
separator characters, ends with the two-character expanded-output marker,
the expanded-output flag is set exactly once for that statement (across a
batch, once per such statement), and exactly the trailing marker occurrence
is removed from the text handed on: the dispatcher/executor receives the
statement with trailing separators stripped, its final two characters
dropped, and whitespace trimmed.  Other occurrences of the two-character
sequence — including one that thereby becomes trailing — remain in the
handed text. -/
theorem expanded_marker_processing (sql : String)
    (h : pyEndsWith "\\G" (pyRstripChar ';' sql) = true) :
    processStatement sql =
      (pyStrip (pyDropRight 2 (pyRstripChar ';' sql)), true) ∧
    ∀ (dispatch : Dispatch) (execSql : ExecSql) (comps : List String),
      (runStatements dispatch execSql comps).2 =
        comps.countP (fun c => pyEndsWith "\\G" (pyRstripChar ';' c)) := by
  constructor
  · simp [processStatement, h]
  · intro dispatch execSql comps
    induction comps with
    | nil => rfl
    | cons c cs ih =>
      simp only [runStatements, List.countP_cons]
      by_cases hc : pyEndsWith "\\G" (pyRstripChar ';' c) = true
      · simp [processStatement, hc, ih, Nat.add_comm]
      · have hc' : pyEndsWith "\\G" (pyRstripChar ';' c) = false := by
          simpa using hc
        simp [processStatement, hc', ih]

/-- Witness for C7 (amended) at concrete statements. -/
theorem expanded_marker_processing_witness :
    processStatement "select 1 \\G" = ("select 1", true) ∧
    (runStatements (fun _ => none) plainExec ["a \\G;", "b"]).2 = 1 := by
  have h := expanded_marker_processing "select 1 \\G" (by decide)
  constructor
  · rw [h.1]; decide
  · rw [h.2 (fun _ => none) plainExec ["a \\G;", "b"]]; decide

/-- Counterexample to C7 as stated: the statement "x \G \G" ends with the
marker, yet the text handed to the dispatcher/executor, "x \G", still
contains (even ends with) the marker — only the trailing occurrence is
stripped. -/
theorem expanded_marker_counterexample :
    processStatement "x \\G \\G" = ("x \\G", true) ∧
    pyEndsWith "\\G" (processStatement "x \\G \\G").1 = true := by
  constructor <;> decide

/-! ## Worker-loop lemmas (shared by the refresher claims) -/

theorem runTasks_cons {α : Type} (t : α → α) (ts : List (α → α)) (idx : α) :
    runTasks (t :: ts) idx = runTasks ts (t idx) := rfl

theorem runPass_no_restart {α : Type} (sched : Nat → Bool)
    (ts : List (α → α)) (idx : α) (k : Nat)
    (h : ∀ j, j < ts.length → sched (k + j) = false) :
    runPass sched ts idx k = (runTasks ts idx, k + ts.length, false) := by
  induction ts generalizing idx k with
  | nil => simp [runPass, runTasks]
  | cons t ts ih =>
    have h0 : sched k = false := by simpa using h 0 (by simp)
    have hrec := ih (t idx) (k + 1) (fun j hj => by
      have := h (j + 1) (by simpa using Nat.succ_lt_succ hj)
      simpa [Nat.add_assoc, Nat.add_comm, Nat.add_left_comm] using this)
    simp only [runPass, h0, Bool.false_eq_true, if_false, hrec,
      runTasks_cons, List.length_cons]
    refine congrArg (fun n => (runTasks ts (t idx), n, false)) ?_
    omega

theorem runPass_interrupt {α : Type} (sched : Nat → Bool)
    (ts : List (α → α)) (idx : α) (k j0 : Nat)
    (hj : j0 < ts.length)
    (htrue : sched (k + j0) = true)
    (hfalse : ∀ j, j < j0 → sched (k + j) = false) :
    runPass sched ts idx k =
      (runTasks (ts.take (j0 + 1)) idx, k + j0 + 1, true) := by
  induction ts generalizing idx k j0 with
  | nil => cases hj
  | cons t ts ih =>
    cases j0 with
    | zero =>
      have h0 : sched k = true := by simpa using htrue
      simp [runPass, h0, runTasks]
    | succ j0 =>
      have h0 : sched k = false := by simpa using hfalse 0 (Nat.succ_pos _)
      have hrec := ih (t idx) (k + 1) j0 (by simpa using Nat.lt_of_succ_lt_succ hj)
        (by
          have := htrue
          simpa [Nat.add_assoc, Nat.add_comm, Nat.add_left_comm] using this)
        (fun j hjj => by
          have := hfalse (j + 1) (Nat.succ_lt_succ hjj)
          simpa [Nat.add_assoc, Nat.add_comm, Nat.add_left_comm] using this)
      simp only [runPass, h0, Bool.false_eq_true, if_false, hrec,
        List.take_succ_cons, runTasks_cons]
      refine congrArg (fun n => (runTasks (ts.take (j0 + 1)) (t idx), n, true)) ?_
      omega

theorem workerLoop_single_restart {α : Type} (tasks : List (α → α))
    (k0 : Nat) (hk : k0 < tasks.length) (fuel : Nat) (hf : 2 ≤ fuel) (idx0 : α) :
    workerLoop (fun k => decide (k = k0)) tasks fuel idx0 0 =
      (runTasks tasks (runTasks (tasks.take (k0 + 1)) idx0), true) := by
  obtain ⟨f, rfl⟩ : ∃ f, fuel = f + 2 := ⟨fuel - 2, by omega⟩
  have h1 := runPass_interrupt (fun k => decide (k = k0)) tasks idx0 0 k0 hk
    (by simp) (fun j hj => by
      simp only [decide_eq_false_iff_not]
      omega)
  have h2 := runPass_no_restart (fun k => decide (k = k0)) tasks
    (runTasks (tasks.take (k0 + 1)) idx0) (0 + k0 + 1) (fun j hj => by
      simp only [decide_eq_false_iff_not]
      omega)
  show workerLoop _ tasks (f + 1 + 1) idx0 0 = _
  simp only [workerLoop, h1, h2, if_true, Bool.false_eq_true, if_false]

theorem runTasks_preserves {α E : Type} (P : E → α → Prop)
    (ts : List (α → α)) (hext : ∀ t ∈ ts, ∀ e i, P e i → P e (t i)) :
    ∀ e idx, P e idx → P e (runTasks ts idx) := by
  induction ts with
  | nil => intro e idx h; simpa [runTasks] using h
  | cons t ts ih =>
    intro e idx h
    have h1 := hext t (List.mem_cons_self t ts) e idx h
    have h2 := ih (fun u hu => hext u (List.mem_cons_of_mem t hu)) e (t idx) h1
    simpa [runTasks_cons] using h2

/-! ## C2: single-flight refresh -/

/-- C2: while a refresh worker is live, calling `refresh()` again leaves
exactly the one live worker (nothing is spawned), returns the "restarted"
acknowledgement and sets the restart flag; the worker — here run under a
schedule on which the flag set by that call is observed at check `k0` of
its current pass — still finishes, and each registered callback is invoked
exactly once, after both calls settled. -/
theorem refresh_while_live {α β : Type} (st : RefresherState)
    (hlive : st.workerAlive = true)
    (tasks : List (α → α)) (k0 : Nat) (hk : k0 < tasks.length)
    (fuel : Nat) (hf : 2 ≤ fuel) (idx0 : α) (callbacks : List β) :
    (refresh st).spawned = false ∧
    (refresh st).state.workerAlive = true ∧
    (refresh st).ack = ackRestarted ∧
    (refresh st).state.restartFlag = true ∧
    (bgRefresh (fun k => decide (k = k0)) tasks fuel idx0 callbacks).2.2 =
      callbacks.map (fun cb =>
        (cb, (bgRefresh (fun k => decide (k = k0)) tasks fuel idx0 callbacks).1)) := by
  have hw := workerLoop_single_restart tasks k0 hk fuel hf idx0
  refine ⟨?_, ?_, ?_, ?_, ?_⟩ <;> simp [refresh, hlive, bgRefresh, hw]

/-- Witness for C2 at one task and one callback. -/
theorem refresh_while_live_witness :
    (refresh ⟨true, false⟩).spawned = false ∧
    (refresh ⟨true, false⟩).ack = ackRestarted ∧
    (bgRefresh (fun k => decide (k = 0)) [fun n => n + 1] 2 (0 : Nat)
      ["cb"]).2.2 = [("cb", 2)] := by
  have h := refresh_while_live (α := Nat) (β := String) ⟨true, false⟩ rfl
    [fun n => n + 1] 0 (by decide) 2 (by decide) 0 ["cb"]
  refine ⟨h.1, h.2.2.1, ?_⟩
  rw [h.2.2.2.2]
  decide

/-! ## C3: restart coalescing in the worker -/

/-- C3: when a restart is observed at check `k0` of the first pass — any
task boundary, including `k0 = tasks.length - 1`, strictly after the final
task — the worker performs the interrupted prefix of `k0 + 1` tasks and
then exactly one additional full pass over all registered tasks from the
first, completes, and invokes each registered callback exactly once with
the finished index; and (given that tasks only extend the index, per the
extensivity hypothesis) every entry present after the interrupted pass is
still present in the final index. -/
theorem bg_refresh_restart_coalescing {α β E : Type} (P : E → α → Prop)
    (tasks : List (α → α)) (k0 : Nat) (hk : k0 < tasks.length)
    (fuel : Nat) (hf : 2 ≤ fuel) (idx0 : α) (callbacks : List β)
    (hext : ∀ t ∈ tasks, ∀ e i, P e i → P e (t i)) :
    bgRefresh (fun k => decide (k = k0)) tasks fuel idx0 callbacks =
      (runTasks tasks (runTasks (tasks.take (k0 + 1)) idx0), true,
        callbacks.map (fun cb =>
          (cb, runTasks tasks (runTasks (tasks.take (k0 + 1)) idx0)))) ∧
    ∀ e, P e (runTasks (tasks.take (k0 + 1)) idx0) →
      P e (runTasks tasks (runTasks (tasks.take (k0 + 1)) idx0)) := by
  have hw := workerLoop_single_restart tasks k0 hk fuel hf idx0
  constructor
  · simp [bgRefresh, hw]
  · intro e he
    exact runTasks_preserves P tasks hext e _ he

/-- Witness for C3: two set-extending tasks, restart observed strictly
after the final task of the first pass. -/
theorem bg_refresh_restart_coalescing_witness :
    bgRefresh (fun k => decide (k = 1))
      [fun l => addUnique l "a", fun l => addUnique l "b"] 2
      ([] : List String) ["cb"] =
      (["a", "b"], true, [("cb", ["a", "b"])]) ∧
    "a" ∈ (bgRefresh (fun k => decide (k = 1))
      [fun l => addUnique l "a", fun l => addUnique l "b"] 2
      ([] : List String) ["cb"]).1 := by
  have h := bg_refresh_restart_coalescing (β := String) (E := String)
    (fun e l => e ∈ l)
    [fun l => addUnique l "a", fun l => addUnique l "b"] 1 (by decide)
    2 (by decide) [] ["cb"]
    (by
      intro t ht e i hei
      simp only [List.mem_cons, List.not_mem_nil, or_false] at ht
      rcases ht with rfl | rfl <;>
        · simp only [addUnique]
          split
          · exact hei
          · exact List.mem_append_left _ hei)
  constructor
  · rw [h.1]; decide
  · rw [h.1]; decide

/-! ## C4: reconnect atomicity -/

/-- C4: for both backend variants, `connect()` closes the prior connection
only after the new connection succeeds: when any step of the attempt fails
(credential derivation or driver connect), the error propagates with the
instance unchanged — in particular the old handle is still installed and
never closed — and when the attempt succeeds, a live connection is
installed and exactly the prior handle (if one existed) is closed. -/
theorem connect_closes_old_only_after_success :
    (∀ (be : AthenaBackend) (engine : AthenaConnParams → Except String Nat)
        (db : Option String) (e : String),
      (be.connect engine db).2 = some e → (be.connect engine db).1 = be) ∧
    (∀ (be : AthenaBackend) (engine : AthenaConnParams → Except String Nat)
        (db : Option String),
      (be.connect engine db).2 = none →
        (be.connect engine db).1.conn.isSome = true ∧
        (be.connect engine db).1.closedHandles =
          be.closedHandles ++ be.conn.toList) ∧
    (∀ (be : RedshiftBackend) (iam : String → Except String (String × String))
        (engine : RedshiftConnParams → Except String Nat)
        (db : Option String) (e : String),
      (be.connect iam engine db).2 = some e → (be.connect iam engine db).1 = be) ∧
    (∀ (be : RedshiftBackend) (iam : String → Except String (String × String))
        (engine : RedshiftConnParams → Except String Nat)
        (db : Option String),
      (be.connect iam engine db).2 = none →
        (be.connect iam engine db).1.conn.isSome = true ∧
        (be.connect iam engine db).1.closedHandles =
          be.closedHandles ++ be.conn.toList) := by
  refine ⟨?_, ?_, ?_, ?_⟩
  · intro be engine db e h
    unfold AthenaBackend.connect at h ⊢
    cases hE : engine (be.connParams db) with
    | error e2 => simp [hE] at h ⊢
    | ok hdl => cases hc : be.conn <;> simp [hE, hc] at h
  · intro be engine db h
    unfold AthenaBackend.connect at h ⊢
    cases hE : engine (be.connParams db) with
    | error e2 => simp [hE] at h
    | ok hdl => cases hc : be.conn <;> simp [hE, hc, Option.toList]
  · intro be iam engine db e h
    unfold RedshiftBackend.connect at h ⊢
    cases hC : be.resolveCreds iam (be.resolveDbName db) with
    | error e2 => simp [hC] at h ⊢
    | ok up =>
      cases hE : engine (be.connParams (be.resolveDbName db) up) with
      | error e2 => simp [hC, hE] at h ⊢
      | ok hdl => cases hc : be.conn <;> simp [hC, hE, hc] at h
  · intro be iam engine db h
    unfold RedshiftBackend.connect at h ⊢
    cases hC : be.resolveCreds iam (be.resolveDbName db) with
    | error e2 => simp [hC] at h
    | ok up =>
      cases hE : engine (be.connParams (be.resolveDbName db) up) with
      | error e2 => simp [hC, hE] at h
      | ok hdl => cases hc : be.conn <;> simp [hC, hE, hc, Option.toList]

/-- A concrete Athena backend holding connection handle 7. -/
def athenaBe7 : AthenaBackend :=
  { aws_access_key_id := none, aws_secret_access_key := none,
    region_name := some "us-east-1", s3_staging_dir := some "s3://x",
    work_group := none, role_arn := none, catalog_name := "AwsDataCatalog",
    result_reuse_enable := false, result_reuse_minutes := 60,
    database := some "db1", conn := some 7, closedHandles := [] }

/-- A concrete Redshift backend holding connection handle 3. -/
def redshiftBe3 : RedshiftBackend :=
  { host := some "c1.abc.redshift.amazonaws.com", port := 5439,
    sslmode := "prefer", connect_timeout := none, aws_profile := "default",
    region := "us-east-1", user := some "u", use_iam := false,
    password := some "pw", database := some "dev", conn := some 3,
    closedHandles := [] }

/-- Witness for C4: a failing driver leaves both concrete backends
untouched; a succeeding driver installs the new handle and closes exactly
the old one. -/
theorem connect_closes_old_only_after_success_witness :
    (athenaBe7.connect (fun _ => .error "boom") none).1 = athenaBe7 ∧
    (athenaBe7.connect (fun _ => .ok 8) none).1.closedHandles = [7] ∧
    (redshiftBe3.connect (fun _ => .ok ("u", "p")) (fun _ => .error "boom")
      none).1 = redshiftBe3 ∧
    (redshiftBe3.connect (fun _ => .ok ("u", "p")) (fun _ => .ok 4)
      none).1.closedHandles = [3] := by
  have h := connect_closes_old_only_after_success
  refine ⟨?_, ?_, ?_, ?_⟩
  · exact h.1 athenaBe7 (fun _ => .error "boom") none "boom" rfl
  · have := (h.2.1 athenaBe7 (fun _ => .ok 8) none rfl).2
    rw [this]; rfl
  · exact h.2.2.1 redshiftBe3 (fun _ => .ok ("u", "p"))
      (fun _ => .error "boom") none "boom" rfl
  · have := (h.2.2.2 redshiftBe3 (fun _ => .ok ("u", "p"))
      (fun _ => .ok 4) none rfl).2
    rw [this]; rfl

/-! ## C10: the catalog split does not touch the stored catalog field -/

/-- An unqualified (or absent) database argument: one the catalog split of
`AthenaBackend.connect` leaves alone. -/
def unqualifiedDb : Option String → Prop
  | none => True
  | some s => s = "" ∨ pyContains '.' s = false

/-- C10: `AthenaBackend.connect` never writes the stored `catalog_name`
field — the catalog component split off a qualified "catalog.database"
argument is used only for that call's connection parameters — so a
subsequent `connect()` with an unqualified or absent database argument
assembles its parameters with the originally configured catalog. -/
theorem connect_preserves_catalog_field (be : AthenaBackend)
    (engine : AthenaConnParams → Except String Nat) (db : Option String) :
    (be.connect engine db).1.catalog_name = be.catalog_name ∧
    ∀ db2 : Option String, unqualifiedDb db2 →
      (AthenaBackend.connParams (be.connect engine db).1 db2).catalog_name =
        be.catalog_name := by
  have hcat : (be.connect engine db).1.catalog_name = be.catalog_name := by
    unfold AthenaBackend.connect
    cases hE : engine (be.connParams db) with
    | error e => rfl
    | ok hdl => cases hc : be.conn <;> simp [hc]
  refine ⟨hcat, ?_⟩
  intro db2 hdb2
  unfold AthenaBackend.connParams AthenaBackend.resolveCatalog
  match db2 with
  | none => simpa using hcat
  | some s =>
    rcases hdb2 with h | h
    · subst h; simpa using hcat
    · simp only [h, Bool.and_false, Bool.false_eq_true, if_false]
      simpa [h] using hcat

/-- Witness for C10: connecting with "cat2.db2" keeps the configured
catalog, and a later unqualified connect call uses it. -/
theorem connect_preserves_catalog_field_witness :
    ((athenaBe7.connect (fun _ => .ok 9) (some "cat2.db2")).1.catalog_name =
      "AwsDataCatalog") ∧
    (AthenaBackend.connParams
      (athenaBe7.connect (fun _ => .ok 9) (some "cat2.db2")).1
      (some "db3")).catalog_name = "AwsDataCatalog" := by
  have h := connect_preserves_catalog_field athenaBe7 (fun _ => .ok 9)
    (some "cat2.db2")
  exact ⟨h.1, h.2 (some "db3") (Or.inr (by decide))⟩

/-! ## C6: best-effort column discovery in the tables refresh task -/

theorem mem_addUnique_of_mem (l : List String) (s x : String) (h : x ∈ l) :
    x ∈ addUnique l s := by
  unfold addUnique
  split
  · exact h
  · exact List.mem_append_left _ h

theorem mem_addUnique_self (l : List String) (s : String) : s ∈ addUnique l s := by
  unfold addUnique
  split
  · assumption
  · exact List.mem_append_right _ (List.mem_singleton.2 rfl)

theorem tablesFold_mem (tds : List String) (c : Completer) :
    (∀ x ∈ c.all_completions,
      x ∈ (tds.foldl (fun c relname =>
        { c with dbmetadataTables := setRelStar c.dbmetadataTables c.dbname relname,
                 all_completions := addUnique c.all_completions relname })
        c).all_completions) ∧
    (∀ r ∈ tds,
      r ∈ (tds.foldl (fun c relname =>
        { c with dbmetadataTables := setRelStar c.dbmetadataTables c.dbname relname,
                 all_completions := addUnique c.all_completions relname })
        c).all_completions) := by
  induction tds generalizing c with
  | nil => exact ⟨fun x hx => hx, fun r hr => absurd hr (List.not_mem_nil r)⟩
  | cons t ts ih =>
    constructor
    · intro x hx
      simp only [List.foldl_cons]
      exact (ih _).1 x (mem_addUnique_of_mem _ _ _ hx)
    · intro r hr
      simp only [List.foldl_cons]
      rcases List.mem_cons.1 hr with rfl | hr
      · exact (ih _).1 r (mem_addUnique_self _ _)
      · exact (ih _).2 r hr

/-- C6 (amended): only for the Redshift backend variant is column
discovery best-effort — when `table_columns()` fails, `refresh_tables`
behaves exactly as if the column contribution were empty: the task still
completes, table entries discovered from `tables()` are recorded, and
previously held completions are kept.  (For the other variants the failure
propagates and aborts the task; see the counterexample.) -/
theorem refresh_tables_redshift_best_effort (c : Completer)
    (tds : List String) (e : String) :
    refresh_tables c ⟨.redshift, .ok tds, .error e⟩ =
      refresh_tables c ⟨.redshift, .ok tds, .ok []⟩ ∧
    ∃ c', refresh_tables c ⟨.redshift, .ok tds, .error e⟩ = .ok c' ∧
      (∀ r ∈ tds, r ∈ c'.all_completions) ∧
      (∀ x ∈ c.all_completions, x ∈ c'.all_completions) := by
  refine ⟨rfl, _, rfl, (tablesFold_mem tds c).2, (tablesFold_mem tds c).1⟩

/-- A completer whose metadata already holds the current database key. -/
def completer0 : Completer := ⟨[(some "db", [])], some "db", []⟩

/-- Witness for C6 (amended) at a concrete completer and failing column
source. -/
theorem refresh_tables_redshift_best_effort_witness :
    ∃ c', refresh_tables completer0 ⟨.redshift, .ok ["t1"], .error "x"⟩ =
      .ok c' ∧ "t1" ∈ c'.all_completions := by
  obtain ⟨c', hc', hmem, -⟩ :=
    (refresh_tables_redshift_best_effort completer0 ["t1"] "x").2
  exact ⟨c', hc', hmem "t1" (List.mem_singleton.2 rfl)⟩

/-- Counterexample to C6 as stated ("for every Backend variant"): for the
Athena (default) branch a failing column discovery propagates out of
`refresh_tables` — the task aborts instead of proceeding with an empty
column contribution. -/
theorem refresh_tables_athena_counterexample :
    refresh_tables completer0 ⟨.athena, .ok ["t1"], .error "boom"⟩ =
      .error "boom" := rfl

end Athenacli
